import Mathlib

/-!
# Verification of the colour 1-D interpolation / extrapolation core

Shallow embedding of `colour/algebra/interpolation.py` and
`colour/algebra/extrapolation.py` over `ℚ`.  Sample arrays are `List ℚ`,
fallible evaluation returns `Except InterpError`, Python / numpy helper
semantics (`np.interp`, `np.isclose`, `np.pad`, `np.clip`, `np.around`,
`np.searchsorted`, negative fancy indexing) are embedded as explicit
functions below.
-/

set_option maxRecDepth 4000

/-- `InterpError` models the exceptions the interpolators raise at
evaluation time: `ValueError` for a dimension mismatch between `x` and `y`,
and `ValueError` for a query outside the interpolation range. -/
inductive InterpError where
  | dimensionMismatch : InterpError
  | outOfRange : InterpError
deriving DecidableEq, Repr

/-- Python `l[0]` on a nonempty array (0 for the empty list, which would
raise `IndexError`). -/
def head0 (l : List ℚ) : ℚ := l.headD 0

/-- Python `l[-1]` on a nonempty array (0 for the empty list, which would
raise `IndexError`). -/
def last0 (l : List ℚ) : ℚ := l.getLastD 0

/-- Python `l[i]` for a non-negative in-bounds index (0 out of bounds,
which would raise `IndexError`). -/
def elt (l : List ℚ) (i : ℕ) : ℚ := l.getD i 0

/-- Minimum of a list of rationals (`np.min`); 0 for the empty list. -/
def listMin (l : List ℚ) : ℚ := l.foldl min (head0 l)

/-- Maximum of a list of rationals (`np.max`); 0 for the empty list. -/
def listMax (l : List ℚ) : ℚ := l.foldl max (head0 l)

/-- Modelled from the spec: `colour.utilities.interval` is not under `src/`
(only its tests are).  The spec describes the value used as "the inferred
uniform sample interval" / "the local sample interval" of the `x` array.
For the uniformly spaced ascending arrays the interpolators assume, this is
the common difference of consecutive samples; we take the smallest
consecutive difference, which coincides with it on uniform data. -/
def intervalFirst (xs : List ℚ) : ℚ :=
  let ds := (xs.zip xs.tail).map (fun p => p.2 - p.1)
  ds.foldl min (ds.headD 0)

/-- Dot product of two coefficient lists (`np.dot` on 1-D arrays). -/
def dot (a b : List ℚ) : ℚ := ((a.zip b).map (fun p => p.1 * p.2)).sum

/-- `np.clip(v, lo, hi)`: `min (max v lo) hi`. -/
def np_clip (v lo hi : ℚ) : ℚ := min (max v lo) hi

/-- `np.around` on a scalar: round half to even. -/
def roundHalfEven (q : ℚ) : ℤ :=
  let f := ⌊q⌋
  let r := q - f
  if r < 1 / 2 then f
  else if 1 / 2 < r then f + 1
  else if f % 2 = 0 then f else f + 1

/-- Python / numpy integer indexing into a 1-D array: a negative index `i`
with `-len ≤ i` addresses `len + i`.  Out-of-bounds indexes (which raise
`IndexError` in Python) default to 0; the theorems below only meet
in-bounds indexes. -/
def pyGet (l : List ℚ) (i : ℤ) : ℚ :=
  if i < 0 then elt l (l.length - (-i).toNat) else elt l i.toNat

/-- `np.searchsorted(a, v)` with the default `side='left'` on a sorted
array: the number of elements strictly below `v`. -/
def searchsorted (a : List ℚ) (v : ℚ) : ℕ := (a.filter (fun t => t < v)).length

/-- Index of a reflected sample: `np.pad(·, mode='reflect')` maps the
(possibly negative or overflowing) position `i` of an `n`-element array to
an in-range index by reflection about the boundaries without repeating the
edge samples. -/
def reflectIdx (n : ℕ) (i : ℤ) : ℕ :=
  if n ≤ 1 then 0
  else
    let p : ℤ := 2 * ((n : ℤ) - 1)
    let m := i.emod p
    if m < n then m.toNat else (p - m).toNat

/-- `np.pad(ys, (wl, wr), mode='reflect')`. -/
def padReflect (wl wr : ℕ) (ys : List ℚ) : List ℚ :=
  (List.range (wl + ys.length + wr)).map
    (fun (p : ℕ) => elt ys (reflectIdx ys.length ((p : ℤ) - (wl : ℤ))))

/-- `np.pad(xs, (w, w), mode='linear_ramp', end_values=(endLo, endHi))`:
the outermost padded samples equal the end values and the pad ramps
linearly to the edge samples. -/
def padLinearRamp (w : ℕ) (endLo endHi : ℚ) (xs : List ℚ) : List ℚ :=
  let lft := (List.range w).map
    (fun (j : ℕ) => endLo + (head0 xs - endLo) * (j : ℚ) / (w : ℚ))
  let rgt := (List.range w).map
    (fun (j : ℕ) => last0 xs + (endHi - last0 xs) * ((j : ℚ) + 1) / (w : ℚ))
  lft ++ xs ++ rgt

/-- Inner loop of `np.interp`: walk the remaining sample pairs; once the
query is at or below the next abscissa, interpolate linearly on the current
segment; past the last sample return the last ordinate. -/
def np_interp_go (q : ℚ) : ℚ × ℚ → List (ℚ × ℚ) → ℚ
  | p, [] => p.2
  | p, p1 :: rest =>
      if q ≤ p1.1 then p.2 + (q - p.1) * (p1.2 - p.2) / (p1.1 - p.1)
      else np_interp_go q p1 rest

/-- `np.interp(q, xs, ys)` for an ascending `xs`: piecewise-linear
interpolation, clamped to the boundary ordinates outside the domain. -/
def np_interp (q : ℚ) (xs ys : List ℚ) : ℚ :=
  match xs.zip ys with
  | [] => 0
  | p :: rest => if q ≤ p.1 then p.2 else np_interp_go q p rest

/-- `np.abs` on a scalar. -/
def ratAbs (q : ℚ) : ℚ := if q < 0 then -q else q

theorem ratAbs_eq_abs (q : ℚ) : ratAbs q = |q| := by
  unfold ratAbs
  split
  · exact (abs_of_neg (by assumption)).symm
  · exact (abs_of_nonneg (le_of_not_lt (by assumption))).symm

/-- `np.isclose(a, b, rtol, atol)`: `|a - b| ≤ atol + rtol * |b|`. -/
def np_isclose (a b rtol atol : ℚ) : Bool := ratAbs (a - b) ≤ atol + rtol * ratAbs b

/-- Inner loop of `closest_index`: argmin with the first index winning
ties. -/
def argminAux : List ℚ → ℕ → ℕ → ℚ → ℕ
  | [], _, best, _ => best
  | v :: rest, k, best, bestv =>
      if v < bestv then argminAux rest (k + 1) k v
      else argminAux rest (k + 1) best bestv

/-- Modelled from the spec: `colour.utilities.closest_indexes` is not under
`src/` (only its tests are).  The spec says the null interpolator must
"find the closest known x sample (by absolute difference)"; this returns
the index of the element of `a` closest to `q`, the first such index on
ties. -/
def closest_index (a : List ℚ) (q : ℚ) : ℕ :=
  match a with
  | [] => 0
  | t :: rest => argminAux (rest.map (fun u => ratAbs (u - q))) 1 0 (ratAbs (t - q))

/-- `_validate_interpolation_range`, shared verbatim by all the direct
interpolators: true when some query is strictly below `x[0]` or strictly
above `x[-1]`. -/
def out_of_interpolation_range (xs qs : List ℚ) : Bool :=
  qs.any (fun q => q < head0 xs) || qs.any (fun q => last0 xs < q)

/-- Common shape of `_evaluate` of every direct interpolator:
`_validate_dimensions` then `_validate_interpolation_range`, then the
interpolation body. -/
def guardedEval {β : Type} (x y qs : List ℚ) (body : List β) :
    Except InterpError (List β) :=
  if x.length ≠ y.length then .error .dimensionMismatch
  else if out_of_interpolation_range x qs then .error .outOfRange
  else .ok body

/-! ## LinearInterpolator -/

/-- `LinearInterpolator`: state after validated construction. -/
structure LinearInterpolator where
  x : List ℚ
  y : List ℚ

/-- `LinearInterpolator._evaluate` on a vector of queries: validate
dimensions and range, then `np.interp`. -/
def LinearInterpolator.evaluate (f : LinearInterpolator) (qs : List ℚ) :
    Except InterpError (List ℚ) :=
  guardedEval f.x f.y qs (qs.map (fun q => np_interp q f.x f.y))

/-- Single-point evaluation of a `LinearInterpolator` (`f(q)` in the
source); `none` when evaluation raises. -/
def LinearInterpolator.eval1 (f : LinearInterpolator) (q : ℚ) : Option ℚ :=
  match f.evaluate [q] with
  | .ok l => l.head?
  | .error _ => none

/-! ## lagrange_coefficients -/

/-- Python `reduce(lambda x, y: x * y, l)`: left fold of multiplication,
raising (`none`) on the empty list. -/
def reduce1 : List ℚ → Option ℚ
  | [] => none
  | a :: rest => some (rest.foldl (fun u v => u * v) a)

/-- The basis list built for index `j`: the Python list comprehension
`[(r - r_i[i]) / (r_i[j] - r_i[i]) for i in range(n) if i != j]`. -/
def lagrange_basis (r : ℚ) (n j : ℕ) : List ℚ :=
  ((List.range n).filter (fun i => i ≠ j)).map
    (fun (i : ℕ) => (r - (i : ℚ)) / ((j : ℚ) - (i : ℚ)))

/-- The `for j in range(...)` accumulation loop of `lagrange_coefficients`:
appends `reduce` of each basis list, propagating the `reduce` failure. -/
def lagrange_loop (r : ℚ) (n : ℕ) : List ℕ → Option (List ℚ)
  | [] => some []
  | j :: rest =>
      match reduce1 (lagrange_basis r n j), lagrange_loop r n rest with
      | some v, some vs => some (v :: vs)
      | _, _ => none

/-- `lagrange_coefficients(r, n)`: for each `j < n` the product over
`i ≠ j` of `(r - i) / (j - i)`, computed with Python `reduce`, which
raises on an empty basis list (hence `none` when some basis is empty). -/
def lagrange_coefficients (r : ℚ) (n : ℕ) : Option (List ℚ) :=
  lagrange_loop r n (List.range n)

/-! ## KernelInterpolator -/

/-- `KernelInterpolator` state: the samples, the half window, the
`padding_args` pad widths (mode is the default `reflect`), the derived
padded arrays `_x_p` / `_y_p`, and the kernel callable (with its
`kernel_args` already applied, giving the `distance -> weight` shape). -/
structure KernelInterpolator where
  x : List ℚ
  y : List ℚ
  window : ℕ
  pad_width : ℕ × ℕ
  x_p : List ℚ
  y_p : List ℚ
  kernel : ℚ → ℚ

/-- The `x` property setter: stores the value and re-derives the padded
`_x_p` by `np.pad(x, (window, window), 'linear_ramp', end_values=(min x -
window * interval, max x + window * interval))`. -/
def KernelInterpolator.setX (s : KernelInterpolator) (v : List ℚ) :
    KernelInterpolator :=
  let d := intervalFirst v
  { s with
    x := v
    x_p := padLinearRamp s.window (listMin v - s.window * d)
      (listMax v + s.window * d) v }

/-- The `y` property setter: stores the value and re-derives the padded
`_y_p` by `np.pad(y, **padding_args)` — note the pad widths come from the
stored `padding_args`, not from the current `window`. -/
def KernelInterpolator.setY (s : KernelInterpolator) (v : List ℚ) :
    KernelInterpolator :=
  { s with y := v, y_p := padReflect s.pad_width.1 s.pad_width.2 v }

/-- The `window` property setter: asserts `window ≥ 1` (`none` models the
assertion failure), stores the value, then re-runs the `x` and `y` setters
on the stored samples. -/
def KernelInterpolator.setWindow (s : KernelInterpolator) (v : ℕ) :
    Option KernelInterpolator :=
  if 1 ≤ v then
    let s1 := { s with window := v }
    let s2 := s1.setX s1.x
    some (s2.setY s2.y)
  else none

/-- The `padding_args` property setter: stores the pad widths and re-runs
the `y` setter on the stored samples. -/
def KernelInterpolator.setPaddingArgs (s : KernelInterpolator) (v : ℕ × ℕ) :
    KernelInterpolator :=
  let s1 := { s with pad_width := v }
  s1.setY s1.y

/-- `KernelInterpolator.__init__` with the default `padding_args`: the
stored pad widths are `(window, window)` from the constructor argument,
and the `x`, `y` and `window` setters then derive the padded arrays. -/
def KernelInterpolator.construct (x y : List ℚ) (window : ℕ)
    (kernel : ℚ → ℚ) : KernelInterpolator :=
  let s0 : KernelInterpolator :=
    { x := [], y := [], window := window, pad_width := (window, window),
      x_p := [], y_p := [], kernel := kernel }
  (s0.setX x).setY y

/-- `KernelInterpolator._evaluate` body on one query point: nearest lower
sample index by `floor`, a window of `2 * window` padded samples, indices
clipped to the padded range and shifted by `min(x_p) / interval`, then the
kernel-weighted sum. -/
def KernelInterpolator.evalPoint (s : KernelInterpolator) (q : ℚ) : ℚ :=
  let d := intervalFirst s.x
  let x_f : ℤ := ⌊q / d⌋
  let clip_l := listMin s.x_p / d
  let clip_h := listMax s.x_p / d
  let idxs := (List.range (2 * s.window)).map (fun (k : ℕ) =>
    roundHalfEven (np_clip ((x_f : ℚ) + (k : ℚ) - (s.window : ℚ) + 1)
      clip_l clip_h - clip_l))
  (idxs.map (fun i => pyGet s.y_p i * s.kernel (q / d - (i : ℚ) - clip_l))).sum

/-- `KernelInterpolator._evaluate`: validate dimensions and range, then
the kernel convolution at every query point. -/
def KernelInterpolator.evaluate (s : KernelInterpolator) (qs : List ℚ) :
    Except InterpError (List ℚ) :=
  guardedEval s.x s.y qs (qs.map s.evalPoint)

/-! ## SpragueInterpolator -/

/-- `SPRAGUE_C_COEFFICIENTS`: the fixed 4×6 boundary coefficient matrix
(CIE 167:2005, Table V). -/
def SPRAGUE_C_COEFFICIENTS : List (List ℚ) :=
  [[884, -1960, 3033, -2648, 1080, -180],
   [508, -540, 488, -367, 144, -24],
   [-24, 144, -367, 488, -540, 508],
   [-180, 1080, -2648, 3033, -1960, 884]]

/-- The `x` setter derivation: two phantom abscissas on each side of `x`,
spaced at the inferred sample interval. -/
def sprague_xp (x : List ℚ) : List ℚ :=
  let d := intervalFirst x
  [head0 x - d * 2, head0 x - d] ++ x ++
    [last0 x + d, last0 x + d * 2]

/-- The `y` setter derivation: four synthetic ordinates, each the dot
product of a row of `SPRAGUE_C_COEFFICIENTS` with the first six
(respectively last six) `y` values, divided by 209. -/
def sprague_yp (y : List ℚ) : List ℚ :=
  let yp1 := dot (SPRAGUE_C_COEFFICIENTS.getD 0 []) (y.take 6) / 209
  let yp2 := dot (SPRAGUE_C_COEFFICIENTS.getD 1 []) (y.take 6) / 209
  let yp3 := dot (SPRAGUE_C_COEFFICIENTS.getD 2 []) (y.drop (y.length - 6)) / 209
  let yp4 := dot (SPRAGUE_C_COEFFICIENTS.getD 3 []) (y.drop (y.length - 6)) / 209
  [yp1, yp2] ++ y ++ [yp3, yp4]

/-- `SpragueInterpolator` state: the samples and the boundary-extended
`_xp` / `_yp` arrays derived by the property setters. -/
structure SpragueInterpolator where
  x : List ℚ
  y : List ℚ
  xp : List ℚ
  yp : List ℚ

/-- `SpragueInterpolator.__init__`: the `y` setter asserts
`len(y) >= 6` (`none` models the assertion failure); the `x` and `y`
setters derive the boundary-extended arrays. -/
def SpragueInterpolator.construct (x y : List ℚ) :
    Option SpragueInterpolator :=
  if y.length < 6 then none
  else some { x := x, y := y, xp := sprague_xp x, yp := sprague_yp y }

/-- `SpragueInterpolator._evaluate` body on one query point:
`i = searchsorted(xp, q) - 1`, `X = (q - xp[i]) / (xp[i+1] - xp[i])`,
fifth-order polynomial with the published `a0..a5` stencil combinations
of `r[i-2] .. r[i+3]` (all divided by 24 except `a0 = r[i]`), where `r`
is indexed with Python semantics (a negative index wraps around). -/
def SpragueInterpolator.evalPoint (s : SpragueInterpolator) (q : ℚ) : ℚ :=
  let i : ℤ := (searchsorted s.xp q : ℤ) - 1
  let X := (q - pyGet s.xp i) / (pyGet s.xp (i + 1) - pyGet s.xp i)
  let r := s.yp
  let a0p := pyGet r i
  let a1p := (2 * pyGet r (i - 2) - 16 * pyGet r (i - 1) + 16 * pyGet r (i + 1)
    - 2 * pyGet r (i + 2)) / 24
  let a2p := (-pyGet r (i - 2) + 16 * pyGet r (i - 1) - 30 * pyGet r i
    + 16 * pyGet r (i + 1) - pyGet r (i + 2)) / 24
  let a3p := (-9 * pyGet r (i - 2) + 39 * pyGet r (i - 1) - 70 * pyGet r i
    + 66 * pyGet r (i + 1) - 33 * pyGet r (i + 2) + 7 * pyGet r (i + 3)) / 24
  let a4p := (13 * pyGet r (i - 2) - 64 * pyGet r (i - 1) + 126 * pyGet r i
    - 124 * pyGet r (i + 1) + 61 * pyGet r (i + 2) - 12 * pyGet r (i + 3)) / 24
  let a5p := (-5 * pyGet r (i - 2) + 25 * pyGet r (i - 1) - 50 * pyGet r i
    + 50 * pyGet r (i + 1) - 25 * pyGet r (i + 2) + 5 * pyGet r (i + 3)) / 24
  a0p + a1p * X + a2p * X ^ 2 + a3p * X ^ 3 + a4p * X ^ 4 + a5p * X ^ 5

/-- `SpragueInterpolator._evaluate`: validate dimensions and range, then
the polynomial evaluation at every query point. -/
def SpragueInterpolator.evaluate (s : SpragueInterpolator) (qs : List ℚ) :
    Except InterpError (List ℚ) :=
  guardedEval s.x s.y qs (qs.map s.evalPoint)

/-! ## NullInterpolator -/

/-- `NullInterpolator` state: samples, the two tolerances and the default
fallback value; `none` for the default models the not-a-number default. -/
structure NullInterpolator where
  x : List ℚ
  y : List ℚ
  absolute_tolerance : ℚ
  relative_tolerance : ℚ
  default : Option ℚ

/-- `NullInterpolator.__init__` with the default tolerances `10e-7` and
the default fallback `np.nan`. -/
def NullInterpolator.construct (x y : List ℚ) : NullInterpolator :=
  { x := x, y := y, absolute_tolerance := 10e-7,
    relative_tolerance := 10e-7, default := none }

/-- `NullInterpolator._evaluate` body on one query point: take the `y`
value at the closest `x` sample, replaced by the default when
`np.isclose(x[index], q, rtol=absolute_tolerance,
atol=relative_tolerance)` fails — the instance tolerances are passed to
the oppositely named keyword slots, exactly as in the source. -/
def NullInterpolator.evalPoint (s : NullInterpolator) (q : ℚ) : Option ℚ :=
  let j := closest_index s.x q
  if np_isclose (elt s.x j) q s.absolute_tolerance s.relative_tolerance
  then some (elt s.y j) else s.default

/-- `NullInterpolator._evaluate`: validate dimensions and range, then the
tolerance-gated nearest-sample lookup at every query point. -/
def NullInterpolator.evaluate (s : NullInterpolator) (qs : List ℚ) :
    Except InterpError (List (Option ℚ)) :=
  guardedEval s.x s.y qs (qs.map s.evalPoint)

/-! ## Extrapolator -/

/-- The wrapped interpolator as the `Extrapolator` sees it: the published
`x` / `y` accessors and single-point evaluation, `none` modelling an
evaluation that raises. -/
structure WrappedInterpolator where
  x : List ℚ
  y : List ℚ
  eval : ℚ → Option ℚ

/-- `Extrapolator` state: the wrapped interpolator, the (lower-cased)
method string and the optional `left` / `right` overrides. -/
structure Extrapolator where
  interpolator : WrappedInterpolator
  method : String
  left : Option ℚ
  right : Option ℚ

/-- Python `str.lower` on one character, restricted to the ASCII letters
the method names use. -/
def lowerChar : Char → Char
  | 'A' => 'a' | 'B' => 'b' | 'C' => 'c' | 'D' => 'd' | 'E' => 'e' | 'F' => 'f'
  | 'G' => 'g' | 'H' => 'h' | 'I' => 'i' | 'J' => 'j' | 'K' => 'k' | 'L' => 'l'
  | 'M' => 'm' | 'N' => 'n' | 'O' => 'o' | 'P' => 'p' | 'Q' => 'q' | 'R' => 'r'
  | 'S' => 's' | 'T' => 't' | 'U' => 'u' | 'V' => 'v' | 'W' => 'w' | 'X' => 'x'
  | 'Y' => 'y' | 'Z' => 'z' | c => c

/-- Python `str.lower`, character by character. -/
def strLower (s : String) : String := ⟨s.data.map lowerChar⟩

/-- The `method` property setter: accepts any string and lower-cases it
(no validation against the supported set). -/
def Extrapolator.setMethod (e : Extrapolator) (v : String) : Extrapolator :=
  { e with method := strLower v }

/-- `Extrapolator.__init__`: stores the wrapped interpolator, the
lower-cased method and the overrides. -/
def Extrapolator.construct (interpolator : WrappedInterpolator)
    (method : String) (left right : Option ℚ) : Extrapolator :=
  { interpolator := interpolator, method := strLower method,
    left := left, right := right }

/-- `Extrapolator._evaluate` on one query point `q`, starting from the
uninitialized `np.empty_like` buffer value `junk`: the method branch
writes the points strictly outside the domain, the `left` / `right`
overrides overwrite them, and the in-range points are delegated to the
wrapped interpolator (whose failure, `none`, is the only way the call can
raise). -/
def Extrapolator.evalPoint (e : Extrapolator) (junk q : ℚ) : Option ℚ :=
  let xi := e.interpolator.x
  let yi := e.interpolator.y
  let x0 := head0 xi
  let xN := last0 xi
  let y0 := head0 yi
  let yN := last0 yi
  let v1 :=
    if e.method = "linear" then
      let low := if q < x0 then
        y0 + (q - x0) * (elt yi 1 - y0) / (elt xi 1 - x0) else junk
      if xN < q then
        yN + (q - xN) * (yN - elt yi (yi.length - 2)) /
          (xN - elt xi (xi.length - 2))
      else low
    else if e.method = "constant" then
      let low := if q < x0 then y0 else junk
      if xN < q then yN else low
    else junk
  let v2 := match e.left with
    | some l => if q < x0 then l else v1
    | none => v1
  let v3 := match e.right with
    | some rv => if xN < q then rv else v2
    | none => v2
  if x0 ≤ q ∧ q ≤ xN then e.interpolator.eval q else some v3

/-- `Extrapolator.__call__` on a query vector; `none` as soon as the
delegation to the wrapped interpolator raises. -/
def Extrapolator.evaluate (e : Extrapolator) (junk : ℚ) :
    List ℚ → Option (List ℚ)
  | [] => some []
  | q :: rest =>
      match e.evalPoint junk q, e.evaluate junk rest with
      | some v, some vs => some (v :: vs)
      | _, _ => none

/-! ## Scenario data (spec §8) -/

/-- The spec scenario abscissas `x = [0..6]`. -/
def scenX : List ℚ := [0, 1, 2, 3, 4, 5, 6]

/-- The spec scenario ordinates. -/
def scenY : List ℚ := [5.92, 9.37, 10.8135, 4.51, 69.59, 27.8007, 86.05]

/-- The extrapolation scenario interpolator: `LinearInterpolator` with
`x = [3, 4, 5]`, `y = [1, 2, 3]`. -/
def linScenario : LinearInterpolator := { x := [3, 4, 5], y := [1, 2, 3] }

/-- The extrapolation scenario interpolator wrapped for the
`Extrapolator` through its published `x` / `y` / evaluation interface. -/
def wrappedLinScenario : WrappedInterpolator :=
  { x := linScenario.x, y := linScenario.y, eval := linScenario.eval1 }

/-! ## Helper lemmas -/

theorem LinearInterpolator.eval1_eq (f : LinearInterpolator) (q : ℚ)
    (hd : f.x.length = f.y.length)
    (h1 : ¬ q < head0 f.x) (h2 : ¬ last0 f.x < q) :
    f.eval1 q = some (np_interp q f.x f.y) := by
  have hrange : out_of_interpolation_range f.x [q] = false := by
    simp only [out_of_interpolation_range, List.any_cons, List.any_nil,
      Bool.or_false, Bool.or_eq_false_iff, decide_eq_false_iff_not]
    exact ⟨h1, h2⟩
  simp [LinearInterpolator.eval1, LinearInterpolator.evaluate, guardedEval,
    hd, hrange]

theorem Extrapolator.evalPoint_in_range (e : Extrapolator) (junk q : ℚ)
    (h1 : head0 e.interpolator.x ≤ q)
    (h2 : q ≤ last0 e.interpolator.x) :
    e.evalPoint junk q = e.interpolator.eval q := by
  simp only [Extrapolator.evalPoint]
  rw [if_pos ⟨h1, h2⟩]

theorem Extrapolator.evalPoint_not_in_range_isSome (e : Extrapolator)
    (junk q : ℚ)
    (h : ¬ (head0 e.interpolator.x ≤ q ∧ q ≤ last0 e.interpolator.x)) :
    (e.evalPoint junk q).isSome = true := by
  simp only [Extrapolator.evalPoint]
  rw [if_neg h]
  rfl

/-! ## Claim theorems -/

/-- C1: for every Extrapolator whose wrapped interpolator evaluates
successfully on the closed domain `[x_min, x_max]`, every query point
inside the domain yields exactly the wrapped interpolator's value, and
evaluation never raises — pointwise and for any query vector, including
points outside the domain. -/
theorem extrapolator_in_range_exact_never_raises
    (e : Extrapolator) (junk : ℚ) (qs : List ℚ)
    (h : ∀ p : ℚ, head0 e.interpolator.x ≤ p →
      p ≤ last0 e.interpolator.x → (e.interpolator.eval p).isSome = true) :
    (∀ q : ℚ, head0 e.interpolator.x ≤ q → q ≤ last0 e.interpolator.x →
      e.evalPoint junk q = e.interpolator.eval q) ∧
    (∀ q : ℚ, (e.evalPoint junk q).isSome = true) ∧
    (e.evaluate junk qs).isSome = true := by
  have hpt : ∀ q : ℚ, (e.evalPoint junk q).isSome = true := by
    intro q
    by_cases hin : head0 e.interpolator.x ≤ q ∧ q ≤ last0 e.interpolator.x
    · rw [Extrapolator.evalPoint_in_range e junk q hin.1 hin.2]
      exact h q hin.1 hin.2
    · exact Extrapolator.evalPoint_not_in_range_isSome e junk q hin
  refine ⟨fun q h1 h2 => Extrapolator.evalPoint_in_range e junk q h1 h2, hpt, ?_⟩
  induction qs with
  | nil => rfl
  | cons q rest ih =>
      obtain ⟨v, hv⟩ := Option.isSome_iff_exists.mp (hpt q)
      obtain ⟨vs, hvs⟩ := Option.isSome_iff_exists.mp ih
      simp [Extrapolator.evaluate, hv, hvs]

theorem extrapolator_in_range_exact_never_raises_witness :
    ((Extrapolator.construct wrappedLinScenario "Linear" none none).evaluate
      99 [1, 4, 9]).isSome = true := by
  have h : ∀ p : ℚ,
      head0 (Extrapolator.construct wrappedLinScenario "Linear"
        none none).interpolator.x ≤ p →
      p ≤ last0 (Extrapolator.construct wrappedLinScenario "Linear"
        none none).interpolator.x →
      ((Extrapolator.construct wrappedLinScenario "Linear"
        none none).interpolator.eval p).isSome = true := by
    intro p h1 h2
    simp only [Extrapolator.construct, wrappedLinScenario] at h1 h2 ⊢
    rw [LinearInterpolator.eval1_eq linScenario p rfl
      (by simpa [linScenario] using not_lt.mpr h1)
      (by simpa [linScenario] using not_lt.mpr h2)]
    rfl
  exact (extrapolator_in_range_exact_never_raises
    (Extrapolator.construct wrappedLinScenario "Linear" none none)
    99 [1, 4, 9] h).2.2

/-- C9: a query point exactly equal to `x_min` or `x_max` is always
answered by delegating to the wrapped interpolator; neither the method
string nor the left/right overrides affect the result there, since every
extrapolation and override branch requires a strict inequality. -/
theorem extrapolator_boundary_delegates (interp : WrappedInterpolator)
    (method : String) (left right : Option ℚ) (junk q : ℚ)
    (hasc : head0 interp.x ≤ last0 interp.x)
    (hq : q = head0 interp.x ∨ q = last0 interp.x) :
    (Extrapolator.mk interp method left right).evalPoint junk q =
      interp.eval q := by
  rcases hq with h | h
  · exact Extrapolator.evalPoint_in_range _ junk q (le_of_eq h.symm)
      (h ▸ hasc)
  · exact Extrapolator.evalPoint_in_range _ junk q (h ▸ hasc)
      (le_of_eq h)

theorem extrapolator_boundary_delegates_witness :
    (Extrapolator.mk wrappedLinScenario "cubic" (some 5) (some 7)).evalPoint
      99 3 = wrappedLinScenario.eval 3 := by
  exact extrapolator_boundary_delegates wrappedLinScenario "cubic"
    (some 5) (some 7) 99 3
    (by norm_num [wrappedLinScenario, linScenario, head0, last0])
    (Or.inl (by norm_num [wrappedLinScenario, linScenario, head0, last0]))

/-- C10: the method setter accepts any string, only lower-casing it; and
when the stored method is neither "linear" nor "constant" and no override
is set, an out-of-domain query point does not raise and returns exactly
the uninitialized buffer value. -/
theorem extrapolator_method_unvalidated (e : Extrapolator) (v : String)
    (junk q : ℚ)
    (hm1 : e.method ≠ "linear") (hm2 : e.method ≠ "constant")
    (hl : e.left = none) (hr : e.right = none)
    (hq : q < head0 e.interpolator.x ∨ last0 e.interpolator.x < q) :
    (e.setMethod v).method = strLower v ∧
    e.evalPoint junk q = some junk := by
  refine ⟨rfl, ?_⟩
  have hout : ¬ (head0 e.interpolator.x ≤ q ∧
      q ≤ last0 e.interpolator.x) := by
    rcases hq with h | h
    · exact fun hc => absurd hc.1 (not_le.mpr h)
    · exact fun hc => absurd hc.2 (not_le.mpr h)
  simp only [Extrapolator.evalPoint]
  rw [if_neg hout]
  simp [hm1, hm2, hl, hr]

theorem extrapolator_method_unvalidated_witness :
    ((Extrapolator.construct wrappedLinScenario "Cubic" none
      none).setMethod "LINEAR").method = strLower "LINEAR" ∧
    (Extrapolator.construct wrappedLinScenario "Cubic" none
      none).evalPoint 42 9 = some 42 := by
  exact extrapolator_method_unvalidated
    (Extrapolator.construct wrappedLinScenario "Cubic" none none) "LINEAR"
    42 9 (by decide) (by decide) rfl rfl
    (Or.inr (by norm_num [Extrapolator.construct, wrappedLinScenario,
      linScenario, last0]))

/-- C7: a set `left` override wins for every query strictly below `x_min`
and a set `right` override wins for every query strictly above `x_max`,
regardless of the method; with the scenario data, method constant and
`left=0`, `evaluate([0.1, 0.2, 8, 9]) == [0, 0, 3, 3]`. -/
theorem extrapolator_override_precedence (e : Extrapolator)
    (junk q l rv : ℚ)
    (hasc : head0 e.interpolator.x ≤ last0 e.interpolator.x) :
    (e.left = some l → q < head0 e.interpolator.x →
      e.evalPoint junk q = some l) ∧
    (e.right = some rv → last0 e.interpolator.x < q →
      e.evalPoint junk q = some rv) ∧
    (Extrapolator.construct wrappedLinScenario "Constant" (some 0)
      none).evaluate junk [0.1, 0.2, 8, 9] = some [0, 0, 3, 3] := by
  have hm : strLower "Constant" = "constant" := rfl
  refine ⟨?_, ?_, ?_⟩
  · intro hleft hq
    have hnr : ¬ last0 e.interpolator.x < q :=
      not_lt.mpr (le_of_lt (lt_of_lt_of_le hq hasc))
    have hout : ¬ (head0 e.interpolator.x ≤ q ∧
        q ≤ last0 e.interpolator.x) :=
      fun hc => absurd hc.1 (not_le.mpr hq)
    simp only [Extrapolator.evalPoint]
    rw [if_neg hout]
    cases hrr : e.right with
    | none => simp [hleft, hq, hrr]
    | some rv2 => simp [hleft, hq, hrr, hnr]
  · intro hright hq
    have hout : ¬ (head0 e.interpolator.x ≤ q ∧
        q ≤ last0 e.interpolator.x) :=
      fun hc => absurd hc.2 (not_le.mpr hq)
    simp only [Extrapolator.evalPoint]
    rw [if_neg hout]
    simp [hright, hq]
  · norm_num [Extrapolator.evaluate, Extrapolator.evalPoint,
      Extrapolator.construct, hm, wrappedLinScenario, linScenario,
      head0, last0, elt]
    decide

theorem extrapolator_override_precedence_witness :
    ((Extrapolator.construct wrappedLinScenario "Constant" (some 0)
      none).evalPoint 99 (1/10) = some 0) ∧
    (Extrapolator.construct wrappedLinScenario "Constant" (some 0)
      none).evaluate 99 [0.1, 0.2, 8, 9] = some [0, 0, 3, 3] := by
  have h := extrapolator_override_precedence
    (Extrapolator.construct wrappedLinScenario "Constant" (some 0) none)
    99 (1/10) 0 0
    (by norm_num [Extrapolator.construct, wrappedLinScenario, linScenario,
      head0, last0])
  exact ⟨h.1 rfl (by norm_num [Extrapolator.construct, wrappedLinScenario,
    linScenario, head0]), h.2.2⟩

/-- C6: with no overrides set and ascending samples, a query below
`x_min` extrapolates with the slope of the first two samples under the
linear method and to the first ordinate under the constant method, and
symmetrically above `x_max` with the last two samples; with the scenario
data, linear `evaluate(1) == -1.0` and constant
`evaluate([0.1, 0.2, 8, 9]) == [1, 1, 3, 3]`. -/
theorem extrapolator_linear_constant_formulas (e : Extrapolator)
    (junk q : ℚ) (hl : e.left = none) (hr : e.right = none)
    (hasc : head0 e.interpolator.x ≤ last0 e.interpolator.x) :
    (e.method = "linear" →
      (q < head0 e.interpolator.x →
        e.evalPoint junk q = some (head0 e.interpolator.y +
          (q - head0 e.interpolator.x) *
          (elt e.interpolator.y 1 - head0 e.interpolator.y) /
          (elt e.interpolator.x 1 - head0 e.interpolator.x))) ∧
      (last0 e.interpolator.x < q →
        e.evalPoint junk q = some (last0 e.interpolator.y +
          (q - last0 e.interpolator.x) *
          (last0 e.interpolator.y -
            elt e.interpolator.y (e.interpolator.y.length - 2)) /
          (last0 e.interpolator.x -
            elt e.interpolator.x (e.interpolator.x.length - 2))))) ∧
    (e.method = "constant" →
      (q < head0 e.interpolator.x →
        e.evalPoint junk q = some (head0 e.interpolator.y)) ∧
      (last0 e.interpolator.x < q →
        e.evalPoint junk q = some (last0 e.interpolator.y))) ∧
    (Extrapolator.construct wrappedLinScenario "Linear" none none).evaluate
      junk [1] = some [-1] ∧
    (Extrapolator.construct wrappedLinScenario "Constant" none
      none).evaluate junk [0.1, 0.2, 8, 9] = some [1, 1, 3, 3] := by
  have hmLin : strLower "Linear" = "linear" := rfl
  have hmCon : strLower "Constant" = "constant" := rfl
  refine ⟨fun hm => ⟨?_, ?_⟩, fun hm => ⟨?_, ?_⟩, ?_, ?_⟩
  · intro hq
    have hnr : ¬ last0 e.interpolator.x < q :=
      not_lt.mpr (le_of_lt (lt_of_lt_of_le hq hasc))
    have hout : ¬ (head0 e.interpolator.x ≤ q ∧
        q ≤ last0 e.interpolator.x) :=
      fun hc => absurd hc.1 (not_le.mpr hq)
    simp only [Extrapolator.evalPoint]
    rw [if_neg hout]
    simp [hm, hq, hnr, hl, hr]
  · intro hq
    have hout : ¬ (head0 e.interpolator.x ≤ q ∧
        q ≤ last0 e.interpolator.x) :=
      fun hc => absurd hc.2 (not_le.mpr hq)
    simp only [Extrapolator.evalPoint]
    rw [if_neg hout]
    simp [hm, hq, hl, hr]
  · intro hq
    have hnr : ¬ last0 e.interpolator.x < q :=
      not_lt.mpr (le_of_lt (lt_of_lt_of_le hq hasc))
    have hout : ¬ (head0 e.interpolator.x ≤ q ∧
        q ≤ last0 e.interpolator.x) :=
      fun hc => absurd hc.1 (not_le.mpr hq)
    have hm1 : e.method ≠ "linear" := by
      rw [hm]; decide
    simp only [Extrapolator.evalPoint]
    rw [if_neg hout]
    simp [hm, hm1, hq, hnr, hl, hr]
  · intro hq
    have hout : ¬ (head0 e.interpolator.x ≤ q ∧
        q ≤ last0 e.interpolator.x) :=
      fun hc => absurd hc.2 (not_le.mpr hq)
    have hm1 : e.method ≠ "linear" := by
      rw [hm]; decide
    simp only [Extrapolator.evalPoint]
    rw [if_neg hout]
    simp [hm, hm1, hq, hl, hr]
  · norm_num [Extrapolator.evaluate, Extrapolator.evalPoint,
      Extrapolator.construct, hmLin, wrappedLinScenario, linScenario,
      head0, last0, elt]
  · norm_num [Extrapolator.evaluate, Extrapolator.evalPoint,
      Extrapolator.construct, hmCon, wrappedLinScenario, linScenario,
      head0, last0, elt]
    decide

theorem extrapolator_linear_constant_formulas_witness :
    (Extrapolator.construct wrappedLinScenario "Linear" none none).evaluate
      99 [1] = some [-1] ∧
    (Extrapolator.construct wrappedLinScenario "Constant" none
      none).evaluate 99 [0.1, 0.2, 8, 9] = some [1, 1, 3, 3] := by
  have h := extrapolator_linear_constant_formulas
    (Extrapolator.construct wrappedLinScenario "Linear" none none)
    99 0 rfl rfl
    (by norm_num [Extrapolator.construct, wrappedLinScenario, linScenario,
      head0, last0])
  exact ⟨h.2.2.1, h.2.2.2⟩

/-- C3: the null interpolator returns, for every in-range query vector,
the `y` value at the closest `x` sample when the closeness test passes —
with `absolute_tolerance` supplied as `rtol` and `relative_tolerance`
supplied as `atol`, exactly as in the source — and the configured default
(not-a-number by default, modelled as `none`) otherwise, never raising on
a tolerance failure; with the scenario data, `evaluate(0.5)` is
not-a-number and `evaluate(1.0) ≈ 9.3700`. -/
theorem null_interpolator_eval_spec (s : NullInterpolator) (qs : List ℚ)
    (hdim : s.x.length = s.y.length)
    (hin : ∀ q ∈ qs, head0 s.x ≤ q ∧ q ≤ last0 s.x) :
    s.evaluate qs = .ok (qs.map (fun q =>
      if np_isclose (elt s.x (closest_index s.x q)) q
          s.absolute_tolerance s.relative_tolerance
      then some (elt s.y (closest_index s.x q)) else s.default)) ∧
    (NullInterpolator.construct scenX scenY).evaluate [1/2] = .ok [none] ∧
    (NullInterpolator.construct scenX scenY).evaluate [1] =
      .ok [some 9.37] := by
  refine ⟨?_, ?_, ?_⟩
  · have hrange : out_of_interpolation_range s.x qs = false := by
      simp only [out_of_interpolation_range, Bool.or_eq_false_iff,
        List.any_eq_false, decide_eq_true_eq]
      exact ⟨fun q hq => not_lt.mpr (hin q hq).1,
        fun q hq => not_lt.mpr (hin q hq).2⟩
    unfold NullInterpolator.evaluate guardedEval
    rw [if_neg (fun hcon => hcon hdim), hrange]
    rfl
  · norm_num [NullInterpolator.construct, NullInterpolator.evaluate,
      NullInterpolator.evalPoint, guardedEval, out_of_interpolation_range,
      closest_index, argminAux, ratAbs, np_isclose, elt, head0, last0,
      scenX, scenY]
  · norm_num [NullInterpolator.construct, NullInterpolator.evaluate,
      NullInterpolator.evalPoint, guardedEval, out_of_interpolation_range,
      closest_index, argminAux, ratAbs, np_isclose, elt, head0, last0,
      scenX, scenY]

theorem null_interpolator_eval_spec_witness :
    (NullInterpolator.construct scenX scenY).evaluate [1/2] = .ok [none] ∧
    (NullInterpolator.construct scenX scenY).evaluate [1] =
      .ok [some 9.37] := by
  have h := null_interpolator_eval_spec (NullInterpolator.construct
    scenX scenY) [1] rfl
    (by
      intro q hq
      simp only [List.mem_singleton] at hq
      subst hq
      norm_num [NullInterpolator.construct, head0, last0, scenX])
  exact ⟨h.2.1, h.2.2⟩

theorem guardedEval_error_iff {β : Type} (x y qs : List ℚ) (body : List β)
    (h : x.length = y.length) :
    (guardedEval x y qs body = .error .outOfRange ↔
      ∃ q ∈ qs, q < head0 x ∨ last0 x < q) := by
  unfold guardedEval
  rw [if_neg (fun hcon => hcon h)]
  by_cases hr : out_of_interpolation_range x qs = true
  · rw [if_pos hr]
    simp only [out_of_interpolation_range, Bool.or_eq_true,
      List.any_eq_true, decide_eq_true_eq] at hr
    constructor
    · intro _
      rcases hr with ⟨q, hq, hlt⟩ | ⟨q, hq, hlt⟩
      · exact ⟨q, hq, Or.inl hlt⟩
      · exact ⟨q, hq, Or.inr hlt⟩
    · intro _
      rfl
  · rw [if_neg hr]
    constructor
    · intro hcon
      exact absurd hcon (by simp)
    · intro hex
      exfalso
      apply hr
      simp only [out_of_interpolation_range, Bool.or_eq_true,
        List.any_eq_true, decide_eq_true_eq]
      obtain ⟨q, hq, hor⟩ := hex
      rcases hor with hlt | hlt
      · exact Or.inl ⟨q, hq, hlt⟩
      · exact Or.inr ⟨q, hq, hlt⟩

theorem guardedEval_ok {β : Type} (x y qs : List ℚ) (body : List β)
    (h : x.length = y.length)
    (hin : ∀ q ∈ qs, head0 x ≤ q ∧ q ≤ last0 x) :
    guardedEval x y qs body = .ok body := by
  have hrange : out_of_interpolation_range x qs = false := by
    simp only [out_of_interpolation_range, Bool.or_eq_false_iff,
      List.any_eq_false, decide_eq_true_eq]
    exact ⟨fun q hq => not_lt.mpr (hin q hq).1,
      fun q hq => not_lt.mpr (hin q hq).2⟩
  unfold guardedEval
  rw [if_neg (fun hcon => hcon h), hrange]
  rfl

/-- C4: each of the four direct interpolators raises the out-of-range
error at evaluation exactly when some query point is strictly below
`x[0]` or strictly above `x[-1]`; with equal-length samples, a query
vector lying inside the closed domain — boundary points included —
evaluates without raising. -/
theorem direct_interpolators_range_error (k : KernelInterpolator)
    (f : LinearInterpolator) (sp : SpragueInterpolator)
    (ni : NullInterpolator) (qk qf qsp qn : List ℚ)
    (hk : k.x.length = k.y.length) (hf : f.x.length = f.y.length)
    (hsp : sp.x.length = sp.y.length) (hn : ni.x.length = ni.y.length) :
    (k.evaluate qk = .error .outOfRange ↔
      ∃ q ∈ qk, q < head0 k.x ∨ last0 k.x < q) ∧
    ((∀ q ∈ qk, head0 k.x ≤ q ∧ q ≤ last0 k.x) →
      k.evaluate qk = .ok (qk.map k.evalPoint)) ∧
    (f.evaluate qf = .error .outOfRange ↔
      ∃ q ∈ qf, q < head0 f.x ∨ last0 f.x < q) ∧
    ((∀ q ∈ qf, head0 f.x ≤ q ∧ q ≤ last0 f.x) →
      f.evaluate qf = .ok (qf.map (fun q => np_interp q f.x f.y))) ∧
    (sp.evaluate qsp = .error .outOfRange ↔
      ∃ q ∈ qsp, q < head0 sp.x ∨ last0 sp.x < q) ∧
    ((∀ q ∈ qsp, head0 sp.x ≤ q ∧ q ≤ last0 sp.x) →
      sp.evaluate qsp = .ok (qsp.map sp.evalPoint)) ∧
    (ni.evaluate qn = .error .outOfRange ↔
      ∃ q ∈ qn, q < head0 ni.x ∨ last0 ni.x < q) ∧
    ((∀ q ∈ qn, head0 ni.x ≤ q ∧ q ≤ last0 ni.x) →
      ni.evaluate qn = .ok (qn.map ni.evalPoint)) := by
  exact ⟨guardedEval_error_iff k.x k.y qk _ hk,
    fun hin => guardedEval_ok k.x k.y qk _ hk hin,
    guardedEval_error_iff f.x f.y qf _ hf,
    fun hin => guardedEval_ok f.x f.y qf _ hf hin,
    guardedEval_error_iff sp.x sp.y qsp _ hsp,
    fun hin => guardedEval_ok sp.x sp.y qsp _ hsp hin,
    guardedEval_error_iff ni.x ni.y qn _ hn,
    fun hin => guardedEval_ok ni.x ni.y qn _ hn hin⟩

/-- A concrete Sprague interpolator state on the scenario data, as the
property setters derive it. -/
def spragueScenario : SpragueInterpolator :=
  { x := scenX, y := scenY, xp := sprague_xp scenX, yp := sprague_yp scenY }

theorem direct_interpolators_range_error_witness :
    ((KernelInterpolator.construct scenX scenY 3 (fun _ => 0)).evaluate [7]
        = .error .outOfRange ↔
      ∃ q ∈ [(7 : ℚ)], q < head0 scenX ∨ last0 scenX < q) ∧
    ((LinearInterpolator.mk scenX scenY).evaluate [0, 6] =
      .ok ([0, 6].map (fun q => np_interp q scenX scenY))) := by
  have h := direct_interpolators_range_error
    (KernelInterpolator.construct scenX scenY 3 (fun _ => 0))
    (LinearInterpolator.mk scenX scenY) spragueScenario
    (NullInterpolator.construct scenX scenY) [7] [0, 6] [] [] rfl rfl rfl rfl
  refine ⟨h.1, h.2.2.2.1 ?_⟩
  intro q hq
  simp only [List.mem_cons, List.not_mem_nil, or_false] at hq
  rcases hq with rfl | rfl
  · norm_num [head0, last0, scenX]
  · norm_num [head0, last0, scenX]

theorem padReflect_length (wl wr : ℕ) (ys : List ℚ) :
    (padReflect wl wr ys).length = wl + ys.length + wr := by
  unfold padReflect
  rw [List.length_map, List.length_range]

theorem padLinearRamp_length (w : ℕ) (endLo endHi : ℚ) (xs : List ℚ) :
    (padLinearRamp w endLo endHi xs).length = w + xs.length + w := by
  unfold padLinearRamp
  simp only [List.length_append, List.length_map, List.length_range]

/-- C2 evidence: after constructing a `KernelInterpolator` on the scenario
data with `window = 3` and then setting `window := 16` through the
property setter, the padded `x` array is re-derived with the new width,
but the padded `y` array is re-padded with the stale `padding_args` pad
width `(3, 3)` recorded at construction time: it keeps 3 reflected
samples per side instead of 16. -/
theorem kernel_window_change_stale_padding :
    ∃ s : KernelInterpolator,
      (KernelInterpolator.construct scenX scenY 3 (fun _ => 0)).setWindow 16
        = some s ∧
      s.x_p.length = scenX.length + 2 * 16 ∧
      s.y_p = padReflect 3 3 scenY ∧
      s.y_p.length = scenY.length + 2 * 3 ∧
      ¬ s.y_p.length = scenY.length + 2 * 16 := by
  refine ⟨_, rfl, ?_, ?_, ?_, ?_⟩
  · simp [KernelInterpolator.construct, KernelInterpolator.setWindow,
      KernelInterpolator.setX, KernelInterpolator.setY,
      padLinearRamp_length, scenX, scenY]
  · simp [KernelInterpolator.construct, KernelInterpolator.setWindow,
      KernelInterpolator.setX, KernelInterpolator.setY]
  · simp [KernelInterpolator.construct, KernelInterpolator.setWindow,
      KernelInterpolator.setX, KernelInterpolator.setY,
      padReflect_length, scenX, scenY]
  · simp [KernelInterpolator.construct, KernelInterpolator.setWindow,
      KernelInterpolator.setX, KernelInterpolator.setY,
      padReflect_length, scenX, scenY]

/-- C5: Sprague construction fails below six samples; otherwise the four
synthetic boundary ordinates are the dot products of the fixed coefficient
rows with the first six and last six `y` values, each divided by 209;
evaluation locates the interval in the boundary-extended abscissas, forms
the normalized offset `X` and the published fifth-order polynomial in the
six surrounding samples; and on the scenario data
`evaluate(0.5) ≈ 7.2185025`. -/
theorem sprague_spec :
    (∀ x y : List ℚ, y.length < 6 →
      SpragueInterpolator.construct x y = none) ∧
    (∀ x y : List ℚ, ∀ s : SpragueInterpolator,
      SpragueInterpolator.construct x y = some s →
      s.yp = [dot [884, -1960, 3033, -2648, 1080, -180] (y.take 6) / 209,
              dot [508, -540, 488, -367, 144, -24] (y.take 6) / 209] ++ y ++
        [dot [-24, 144, -367, 488, -540, 508] (y.drop (y.length - 6)) / 209,
         dot [-180, 1080, -2648, 3033, -1960, 884]
           (y.drop (y.length - 6)) / 209]) ∧
    (∀ s : SpragueInterpolator, ∀ q : ℚ,
      s.evalPoint q =
        (fun (i : ℤ) =>
          (fun (X : ℚ) =>
            pyGet s.yp i
            + (2 * pyGet s.yp (i - 2) - 16 * pyGet s.yp (i - 1)
               + 16 * pyGet s.yp (i + 1) - 2 * pyGet s.yp (i + 2)) / 24 * X
            + (-pyGet s.yp (i - 2) + 16 * pyGet s.yp (i - 1)
               - 30 * pyGet s.yp i + 16 * pyGet s.yp (i + 1)
               - pyGet s.yp (i + 2)) / 24 * X ^ 2
            + (-9 * pyGet s.yp (i - 2) + 39 * pyGet s.yp (i - 1)
               - 70 * pyGet s.yp i + 66 * pyGet s.yp (i + 1)
               - 33 * pyGet s.yp (i + 2) + 7 * pyGet s.yp (i + 3)) / 24 * X ^ 3
            + (13 * pyGet s.yp (i - 2) - 64 * pyGet s.yp (i - 1)
               + 126 * pyGet s.yp i - 124 * pyGet s.yp (i + 1)
               + 61 * pyGet s.yp (i + 2) - 12 * pyGet s.yp (i + 3)) / 24 * X ^ 4
            + (-5 * pyGet s.yp (i - 2) + 25 * pyGet s.yp (i - 1)
               - 50 * pyGet s.yp i + 50 * pyGet s.yp (i + 1)
               - 25 * pyGet s.yp (i + 2) + 5 * pyGet s.yp (i + 3)) / 24 * X ^ 5)
          ((q - pyGet s.xp i) / (pyGet s.xp (i + 1) - pyGet s.xp i)))
        ((searchsorted s.xp q : ℤ) - 1)) ∧
    (∃ s : SpragueInterpolator,
      SpragueInterpolator.construct scenX scenY = some s ∧
      ratAbs (s.evalPoint (1/2) - 7.2185025) < 1 / 1000000) := by
  refine ⟨?_, ?_, ?_, ?_⟩
  · intro x y h
    unfold SpragueInterpolator.construct
    rw [if_pos h]
  · intro x y s h
    unfold SpragueInterpolator.construct at h
    split_ifs at h
    simp only [Option.some.injEq] at h
    subst h
    rfl
  · intro s q
    rfl
  · refine ⟨_, rfl, ?_⟩
    norm_num [SpragueInterpolator.evalPoint, sprague_xp, sprague_yp,
      SPRAGUE_C_COEFFICIENTS, intervalFirst, searchsorted, pyGet,
      head0, last0, dot, min_def, scenX, scenY]
    norm_num [show Int.toNat 0 = 0 from rfl, show Int.toNat 1 = 1 from rfl,
      show Int.toNat 2 = 2 from rfl, show Int.toNat 3 = 3 from rfl,
      show Int.toNat 4 = 4 from rfl, show Int.toNat 5 = 5 from rfl,
      elt, ratAbs]

theorem foldl_mul_eq_prod (l : List ℚ) (a : ℚ) :
    l.foldl (fun u v => u * v) a = a * l.prod := by
  induction l generalizing a with
  | nil => simp
  | cons b bs ih => simp [List.foldl_cons, ih, List.prod_cons, mul_assoc]

theorem reduce1_eq_prod (l : List ℚ) (h : l ≠ []) :
    reduce1 l = some l.prod := by
  cases l with
  | nil => exact absurd rfl h
  | cons a rest => simp [reduce1, foldl_mul_eq_prod, List.prod_cons]

theorem lagrange_basis_ne_nil (r : ℚ) (n j : ℕ) (h2 : 2 ≤ n) (hj : j < n) :
    lagrange_basis r n j ≠ [] := by
  unfold lagrange_basis
  intro hcon
  rw [List.map_eq_nil_iff] at hcon
  by_cases hj0 : j = 0
  · subst hj0
    have hmem : 1 ∈ (List.range n).filter (fun i => i ≠ 0) := by
      simp only [List.mem_filter, List.mem_range]
      exact ⟨by omega, by decide⟩
    rw [hcon] at hmem
    exact absurd hmem (List.not_mem_nil _)
  · have hmem : 0 ∈ (List.range n).filter (fun i => i ≠ j) := by
      simp only [List.mem_filter, List.mem_range]
      refine ⟨by omega, ?_⟩
      rw [decide_eq_true_eq]
      exact fun hc => hj0 hc.symm
    rw [hcon] at hmem
    exact absurd hmem (List.not_mem_nil _)

theorem lagrange_loop_eq (r : ℚ) (n : ℕ) (h2 : 2 ≤ n) (js : List ℕ)
    (hjs : ∀ j ∈ js, j < n) :
    lagrange_loop r n js =
      some (js.map (fun j => (lagrange_basis r n j).prod)) := by
  induction js with
  | nil => rfl
  | cons j rest ih =>
      have hj : j < n := hjs j (List.mem_cons_self j rest)
      have hrest : ∀ a ∈ rest, a < n :=
        fun a ha => hjs a (List.mem_cons_of_mem j ha)
      simp only [lagrange_loop]
      rw [reduce1_eq_prod _ (lagrange_basis_ne_nil r n j h2 hj), ih hrest]
      rfl

theorem lagrange_basis_prod (r : ℚ) (n j : ℕ) :
    (lagrange_basis r n j).prod =
      ∏ i in (Finset.range n).filter (fun i => i ≠ j),
        (r - (i : ℚ)) / ((j : ℚ) - (i : ℚ)) := by
  unfold lagrange_basis
  rw [Finset.prod_eq_multiset_prod, Finset.filter_val, Finset.range_val,
    ← Multiset.coe_range, Multiset.filter_coe, Multiset.map_coe,
    Multiset.prod_coe]

/-- C8 counterexample: at `n = 1` the basis list for `j = 0` is empty and
the Python `reduce` raises a `TypeError`, so `lagrange_coefficients(0.1, 1)`
does not return a 1-element coefficient list. -/
theorem lagrange_coefficients_raises_at_n_one :
    lagrange_coefficients (1/10) 1 = none ∧
    ¬ ∃ l : List ℚ, lagrange_coefficients (1/10) 1 = some l ∧
      l.length = 1 := by
  have h : lagrange_coefficients (1/10 : ℚ) 1 = none := by
    norm_num [lagrange_coefficients, lagrange_loop, lagrange_basis, reduce1,
      List.range_succ]
  refine ⟨h, ?_⟩
  rintro ⟨l, hl, _⟩
  rw [h] at hl
  exact Option.noConfusion hl

/-- C8 (amended to stencil sizes `n ≥ 2`, since `n = 1` raises):
`lagrange_coefficients(r, n)` returns exactly `n` values whose `j`-th
entry is the product over `i ≠ j` of `(r - i) / (j - i)`; in particular
`lagrange_coefficients(0.1) = [0.8265, 0.2755, -0.1305, 0.0285]`. -/
theorem lagrange_coefficients_spec :
    (∀ (r : ℚ) (n : ℕ), 2 ≤ n →
      ∃ l : List ℚ, lagrange_coefficients r n = some l ∧ l.length = n ∧
        ∀ j : ℕ, j < n → l.getD j 0 =
          ∏ i in (Finset.range n).filter (fun i => i ≠ j),
            (r - (i : ℚ)) / ((j : ℚ) - (i : ℚ))) ∧
    lagrange_coefficients (1/10) 4 =
      some [0.8265, 0.2755, -0.1305, 0.0285] := by
  constructor
  · intro r n h2
    refine ⟨(List.range n).map (fun j => (lagrange_basis r n j).prod),
      ?_, ?_, ?_⟩
    · unfold lagrange_coefficients
      exact lagrange_loop_eq r n h2 (List.range n)
        (fun j hj => List.mem_range.mp hj)
    · simp
    · intro j hj
      have hg : ((List.range n).map
          (fun j => (lagrange_basis r n j).prod)).getD j 0 =
          (lagrange_basis r n j).prod := by
        rw [List.getD_eq_getElem?_getD, List.getElem?_map,
          List.getElem?_range hj]
        rfl
      rw [hg, lagrange_basis_prod]
  · norm_num [lagrange_coefficients, lagrange_loop, lagrange_basis, reduce1,
      List.range_succ]

theorem lagrange_coefficients_spec_witness :
    (∃ l : List ℚ, lagrange_coefficients (1/10) 4 = some l ∧
      l.length = 4 ∧
      ∀ j : ℕ, j < 4 → l.getD j 0 =
        ∏ i in (Finset.range 4).filter (fun i => i ≠ j),
          ((1/10 : ℚ) - (i : ℚ)) / ((j : ℚ) - (i : ℚ))) ∧
    lagrange_coefficients (1/10) 4 =
      some [0.8265, 0.2755, -0.1305, 0.0285] :=
  ⟨lagrange_coefficients_spec.1 (1/10) 4 (by norm_num),
    lagrange_coefficients_spec.2⟩

theorem sprague_spec_witness :
    SpragueInterpolator.construct scenX [1, 2, 3] = none ∧
    (∃ s : SpragueInterpolator,
      SpragueInterpolator.construct scenX scenY = some s ∧
      ratAbs (s.evalPoint (1/2) - 7.2185025) < 1 / 1000000) :=
  ⟨sprague_spec.1 scenX [1, 2, 3] (by norm_num), sprague_spec.2.2.2⟩
